import Mathlib

/-!
Verification development for the CULgebra Matrix core
(src/modules/core/Mat.h).

The repository ships the Matrix class as a header of declarations only;
the bodies of the constructors, dimension queries, arithmetic operators
and transform operations are not part of the sources.  Following the
specification (spec.md sections 3, 4.1 to 4.5), the behaviour of those
operations is modelled here as executable Lean definitions: a Matrix is
a dimension descriptor (a list of axis sizes, rank at most 3) together
with a flat row-major element buffer whose length is the product of the
sizes.  The declaration surface of the header itself is embedded
separately as a list of declared members.
-/

deriving instance DecidableEq for Except

namespace CUL

/-- Modelled from the spec: the error kinds of section 7 that the core
construction and operator layer can signal (device-specific kinds are out
of scope of the modelled operations). -/
inductive MatError where
  | ShapeError
  | ShapeMismatchError
  | DimensionalityError
  | IndexOutOfRangeError
  | DivisionByZeroError
  deriving DecidableEq, Repr

/-- Modelled from the spec: a Matrix is a Dimension Descriptor (the list
of axis sizes, finest axis last) together with the Flat Storage buffer of
elements in row-major order.  The missing parts are the data members of
class Matrix, declared but never defined in src/modules/core/Mat.h. -/
structure Matrix (T : Type) where
  sizes : List Nat
  elements : List T
  deriving DecidableEq, Repr

namespace Matrix

/-- Modelled from the spec (4.1): descriptor construction validates the
requested shape, failing with ShapeError when more than 3 axes are given
or any entry is negative. -/
def descriptorConstruct (dims : List Int) : Except MatError (List Nat) :=
  if dims.length > 3 then .error .ShapeError
  else if dims.any (fun d => d < 0) then .error .ShapeError
  else .ok (dims.map Int.toNat)

/-- Modelled from the spec (4.3, default form): the canonical
uninitialized Matrix, rank 1 with size list (0). -/
def uninit (T : Type) : Matrix T := ⟨[0], []⟩

/-- Modelled from the spec (4.2 Allocate): zero-filled construction for a
validated dimension list. -/
def zeros (T : Type) [Zero T] (dims : List Int) : Except MatError (Matrix T) :=
  (descriptorConstruct dims).map fun sizes =>
    ⟨sizes, List.replicate sizes.prod (0 : T)⟩

/-- Modelled from the spec: the 1D zero-filled constructor Matrix(int). -/
def mk1 (T : Type) [Zero T] (dim : Int) : Except MatError (Matrix T) :=
  zeros T [dim]

/-- Modelled from the spec: the 2D zero-filled constructor
Matrix(int, int). -/
def mk2 (T : Type) [Zero T] (n m : Int) : Except MatError (Matrix T) :=
  zeros T [n, m]

/-- Modelled from the spec: the 3D zero-filled constructor
Matrix(int, int, int). -/
def mk3 (T : Type) [Zero T] (x y z : Int) : Except MatError (Matrix T) :=
  zeros T [x, y, z]

/-- Modelled from the spec (4.3): the arbitrary-rank constructor
Matrix(std::vector<int>, std::vector<T>) from a flat seed.  The
descriptor is constructed first (ShapeError on an invalid shape, spec
section 2 control flow and 4.1), then the seed length is validated
against the size product (ShapeMismatchError, 4.1 Validate). -/
def fromFlat (dims : List Int) (data : List T) : Except MatError (Matrix T) :=
  match descriptorConstruct dims with
  | .error e => .error e
  | .ok sizes =>
      if data.length ≠ sizes.prod then .error .ShapeMismatchError
      else .ok ⟨sizes, data⟩

/-- Modelled from the spec: the 1D seed constructor
Matrix(int, std::vector<T>). -/
def mk1v (dim : Int) (v : List T) : Except MatError (Matrix T) :=
  fromFlat [dim] v

/-- Modelled from the spec (4.2 AllocateFrom): the 2D seed constructor
Matrix(int, int, std::vector<std::vector<T>>); the nested seed is
flattened in row-major order after its implied shape is checked against
the declared dimensions. -/
def mk2v (x y : Int) (v : List (List T)) : Except MatError (Matrix T) :=
  match descriptorConstruct [x, y] with
  | .error e => .error e
  | .ok sizes =>
      if v.length = x.toNat ∧ v.all (fun row => row.length = y.toNat) then
        .ok ⟨sizes, v.flatten⟩
      else .error .ShapeMismatchError

/-- Modelled from the spec (4.2 AllocateFrom): the 3D seed constructor
Matrix(int, int, int, nested vector). -/
def mk3v (x y z : Int) (v : List (List (List T))) :
    Except MatError (Matrix T) :=
  match descriptorConstruct [x, y, z] with
  | .error e => .error e
  | .ok sizes =>
      if v.length = x.toNat ∧
          v.all (fun plane =>
            plane.length = y.toNat ∧
              plane.all (fun row => row.length = z.toNat)) then
        .ok ⟨sizes, (v.map List.flatten).flatten⟩
      else .error .ShapeMismatchError

/-- Modelled from the spec (4.3): dimX returns the first axis size. -/
def dimX (M : Matrix T) : Nat := M.sizes.headD 1

/-- Modelled from the spec (4.3): dimY returns the second axis size, 1
when the axis is unused by the rank. -/
def dimY (M : Matrix T) : Nat := (M.sizes.drop 1).headD 1

/-- Modelled from the spec (4.3): dimZ returns the third axis size, 1
when the axis is unused by the rank. -/
def dimZ (M : Matrix T) : Nat := (M.sizes.drop 2).headD 1

/-- Modelled from the spec (3, Matrix invariant): the row-major flat
offset of index tuple (i, j, k); the stride of the finest axis is 1 and
each coarser stride is the product of the finer axis sizes. -/
def offset (M : Matrix T) (i j k : Nat) : Nat :=
  i * (M.dimY * M.dimZ) + j * M.dimZ + k

/-- Modelled from the spec (3): a Matrix is valid when its flat storage
length equals the product of its sizes and its rank respects the
3-dimension cap. -/
def valid (M : Matrix T) : Prop :=
  M.elements.length = M.sizes.prod ∧ M.sizes.length ≤ 3

instance (M : Matrix T) : Decidable M.valid := by
  unfold valid; infer_instance

/-- Modelled from the spec (4.4): elementwise addition producing a new
Matrix; DimensionalityError when the operand ranks differ,
ShapeMismatchError when same-rank dimensions differ in some axis. -/
def add [Add T] (A B : Matrix T) : Except MatError (Matrix T) :=
  if A.sizes = B.sizes then
    .ok ⟨A.sizes, A.elements.zipWith (fun a b => a + b) B.elements⟩
  else if A.sizes.length = B.sizes.length then .error .ShapeMismatchError
  else .error .DimensionalityError

/-- Modelled from the spec (4.4): elementwise subtraction, with the same
shape policy as addition. -/
def sub [Sub T] (A B : Matrix T) : Except MatError (Matrix T) :=
  if A.sizes = B.sizes then
    .ok ⟨A.sizes, A.elements.zipWith (fun a b => a - b) B.elements⟩
  else if A.sizes.length = B.sizes.length then .error .ShapeMismatchError
  else .error .DimensionalityError

/-- Modelled from the spec (4.4): the flat row-major buffer of the
standard matrix product of an x by y buffer with a y by z buffer. -/
def matmulFlat [Mul T] [Add T] [Zero T] (x y z : Nat) (a b : List T) :
    List T :=
  (List.range (x * z)).map fun m =>
    ((List.range y).map fun t =>
      a.getD (m / z * y + t) 0 * b.getD (t * z + m % z) 0).sum

/-- Modelled from the spec (4.4): shape-dispatched multiplication.
Standard matrix multiplication applies to two rank-2 operands whose inner
dimensions agree, with result shape (A.dimX, B.dimY); otherwise the
Hadamard elementwise product applies when the shapes match exactly.  The
dispatch order is forced by the concrete scenario of spec section 8
(square 2 by 2 operands multiply with matrix semantics). -/
def mul [Mul T] [Add T] [Zero T] (A B : Matrix T) :
    Except MatError (Matrix T) :=
  if A.sizes.length = 2 ∧ B.sizes.length = 2 ∧ A.dimY = B.dimX then
    .ok ⟨[A.dimX, B.dimY],
      matmulFlat A.dimX A.dimY B.dimY A.elements B.elements⟩
  else if A.sizes = B.sizes then
    .ok ⟨A.sizes, A.elements.zipWith (fun a b => a * b) B.elements⟩
  else if A.sizes.length = B.sizes.length then .error .ShapeMismatchError
  else .error .DimensionalityError

/-- Modelled from the spec (4.5): the flat row-major buffer of the
transpose of an x by y buffer; position j * x + i of the result carries
the element at position i * y + j of the input. -/
def transposeFlat [Zero T] (x y : Nat) (l : List T) : List T :=
  (List.range (y * x)).map fun m => l.getD (m % x * y + m / x) 0

/-- Modelled from the spec (4.5): Transpose() returns a new Matrix; for a
rank-2 Matrix the dimensions are swapped and the elements remapped, for
any other rank it is a copy of the input. -/
def transpose [Zero T] (M : Matrix T) : Matrix T :=
  match M.sizes with
  | [x, y] => ⟨[y, x], transposeFlat x y M.elements⟩
  | _ => M

end Matrix

/-- Modelled from the spec (3 Flat Storage ownership, 4.3 copy
constructor): a handle-and-store ownership model.  A handle carries the
descriptor and the identity of the buffer it exclusively owns; the store
maps buffer identities to element buffers. -/
structure MatHandle where
  bufId : Nat
  sizes : List Nat
  deriving DecidableEq, Repr

/-- Modelled from the spec: the pool of element buffers, one per buffer
identity. -/
def Store (T : Type) : Type := Nat → List T

/-- Pointwise update of one buffer of the store. -/
def Store.update (s : Store T) (id : Nat) (buf : List T) : Store T :=
  fun n => if n = id then buf else s n

/-- Modelled from the spec (4.3): the copy constructor performs a full
deep copy of descriptor and storage into a fresh buffer, so the copy
never aliases the source. -/
def copyMatrix (s : Store T) (A : MatHandle) (fresh : Nat) :
    MatHandle × Store T :=
  (⟨fresh, A.sizes⟩, Store.update s fresh (s A.bufId))

/-- Modelled from the spec: an in-place element mutation of the buffer
owned by one handle. -/
def writeElement (s : Store T) (M : MatHandle) (off : Nat) (v : T) :
    Store T :=
  Store.update s M.bufId ((s M.bufId).set off v)

/-- The kinds of member a class declaration can contribute, for the
embedding of the declaration surface of Mat.h. -/
inductive MemberKind where
  | ctor
  | dtor
  | query
  | dataMember
  | operatorOverload
  | rowAccess
  | deviceOp
  deriving DecidableEq, Repr

/-- The member declarations of class Matrix<T>, transcribed from
src/modules/core/Mat.h lines 44 to 99: nine constructors, the destructor
and four member functions.  The header declares no data member, no
arithmetic operator, no transpose, no row accessor (only a trailing
comment mentions one) and no device-residency member. -/
def matrixDeclaredMembers : List (String × MemberKind) :=
  [("Matrix()", .ctor),
   ("Matrix(int)", .ctor),
   ("Matrix(int,int)", .ctor),
   ("Matrix(int,int,int)", .ctor),
   ("Matrix(int,vector<T>)", .ctor),
   ("Matrix(int,int,vector<vector<T>>)", .ctor),
   ("Matrix(int,int,int,vector<vector<vector<T>>>)", .ctor),
   ("Matrix(vector<int>,vector<T>)", .ctor),
   ("Matrix(const Matrix&)", .ctor),
   ("~Matrix()", .dtor),
   ("dimX", .query),
   ("dimY", .query),
   ("dimZ", .query),
   ("first", .query)]

/-- The declared data members of class Matrix<T>. -/
def dataMembers : List (String × MemberKind) :=
  matrixDeclaredMembers.filter fun m => m.2 = MemberKind.dataMember

/-- The object state of a declared Matrix<T> instance: one value for
each declared data member, whatever type each field may have.  With no
declared data member this is a one-point type. -/
def MatrixObjectState (fieldType : String → Type) : Type :=
  ∀ m ∈ dataMembers, fieldType m.1

theorem getD_range_map {T : Type} (f : Nat → T) (d : T) {n m : Nat}
    (h : m < n) : ((List.range n).map f).getD m d = f m := by
  simp [List.getD_eq_getElem?_getD, List.getElem?_range h]

theorem map_getD_range {T : Type} (l : List T) (d : T) :
    (List.range l.length).map (fun m => l.getD m d) = l := by
  apply List.ext_getElem (by simp)
  intro i h1 h2
  simp [List.getD_eq_getElem?_getD, List.getElem?_eq_getElem h2]

theorem rowMajorOffset_lt {X Y Z i j k : Nat} (hi : i < X) (hj : j < Y)
    (hk : k < Z) : i * (Y * Z) + j * Z + k < X * (Y * Z) := by
  have h1 : (j + 1) * Z ≤ Y * Z := Nat.mul_le_mul_right Z (Nat.succ_le_of_lt hj)
  have h2 : (i + 1) * (Y * Z) ≤ X * (Y * Z) :=
    Nat.mul_le_mul_right (Y * Z) (Nat.succ_le_of_lt hi)
  have e1 : (j + 1) * Z = j * Z + Z := by ring
  have e2 : (i + 1) * (Y * Z) = i * (Y * Z) + Y * Z := by ring
  omega

theorem mulAdd_decomp {z a1 k1 a2 k2 : Nat} (h1 : k1 < z) (h2 : k2 < z)
    (he : a1 * z + k1 = a2 * z + k2) : a1 = a2 ∧ k1 = k2 := by
  have hz : 0 < z := by omega
  have he2 : k1 + a1 * z = k2 + a2 * z := by omega
  have hk : k1 = k2 := by
    have hm := congrArg (fun t => t % z) he2
    simpa [Nat.add_mul_mod_self_right, Nat.mod_eq_of_lt h1,
      Nat.mod_eq_of_lt h2] using hm
  refine ⟨?_, hk⟩
  have hmul : a1 * z = a2 * z := by omega
  exact Nat.eq_of_mul_eq_mul_right hz hmul

theorem rowMajorOffset_inj {Y Z i j k i2 j2 k2 : Nat}
    (hj : j < Y) (hk : k < Z) (hj2 : j2 < Y) (hk2 : k2 < Z)
    (he : i * (Y * Z) + j * Z + k = i2 * (Y * Z) + j2 * Z + k2) :
    i = i2 ∧ j = j2 ∧ k = k2 := by
  have e1 : i * (Y * Z) + j * Z + k = (i * Y + j) * Z + k := by ring
  have e2 : i2 * (Y * Z) + j2 * Z + k2 = (i2 * Y + j2) * Z + k2 := by ring
  rw [e1, e2] at he
  obtain ⟨ha, hkk⟩ := mulAdd_decomp hk hk2 he
  obtain ⟨hii, hjj⟩ := mulAdd_decomp hj hj2 ha
  exact ⟨hii, hjj, hkk⟩

theorem valid_elements_length {T : Type} {M : Matrix T} (h : M.valid) :
    M.elements.length = M.dimX * (M.dimY * M.dimZ) := by
  obtain ⟨hlen, hrank⟩ := h
  rw [hlen]
  rcases M with ⟨sizes, elements⟩
  rcases sizes with _ | ⟨x, _ | ⟨y, _ | ⟨z, _ | ⟨w, t⟩⟩⟩⟩
  · simp [Matrix.dimX, Matrix.dimY, Matrix.dimZ]
  · simp [Matrix.dimX, Matrix.dimY, Matrix.dimZ]
  · simp [Matrix.dimX, Matrix.dimY, Matrix.dimZ]
  · simp [Matrix.dimX, Matrix.dimY, Matrix.dimZ, Nat.mul_assoc]
  · simp at hrank

theorem descriptorConstruct_ok {dims : List Int} {sizes : List Nat}
    (h : Matrix.descriptorConstruct dims = .ok sizes) :
    sizes = dims.map Int.toNat ∧ dims.length ≤ 3 := by
  by_cases h3 : dims.length > 3
  · simp [Matrix.descriptorConstruct, h3] at h
  · by_cases hneg : dims.any (fun d => decide (d < 0))
    · simp [Matrix.descriptorConstruct, h3, hneg] at h
    · simp [Matrix.descriptorConstruct, h3, hneg] at h
      exact ⟨h.symm, by omega⟩

theorem zeros_ok_valid {T : Type} [Zero T] {dims : List Int} {M : Matrix T}
    (h : Matrix.zeros T dims = .ok M) : M.valid := by
  unfold Matrix.zeros at h
  cases hdc : Matrix.descriptorConstruct dims with
  | error e => rw [hdc] at h; simp [Except.map] at h
  | ok sizes =>
      rw [hdc] at h
      simp [Except.map] at h
      obtain ⟨hs, hr⟩ := descriptorConstruct_ok hdc
      subst h
      refine ⟨by simp, ?_⟩
      rw [hs]
      simpa using hr

theorem fromFlat_ok_valid {T : Type} {dims : List Int} {data : List T}
    {M : Matrix T} (h : Matrix.fromFlat dims data = .ok M) : M.valid := by
  unfold Matrix.fromFlat at h
  cases hdc : Matrix.descriptorConstruct dims with
  | error e => rw [hdc] at h; simp at h
  | ok sizes =>
      rw [hdc] at h
      obtain ⟨hs, hr⟩ := descriptorConstruct_ok hdc
      by_cases hlen : data.length ≠ sizes.prod
      · simp [hlen] at h
      · simp [hlen] at h
        subst h
        have hlen2 : data.length = sizes.prod := by omega
        refine ⟨hlen2, ?_⟩
        rw [hs]
        simpa using hr

theorem length_flatten_const {T : Type} {v : List (List T)} {m : Nat}
    (h : ∀ r ∈ v, r.length = m) : v.flatten.length = v.length * m := by
  induction v with
  | nil => simp
  | cons r t ih =>
      have hr := h r (List.mem_cons_self r t)
      have ht := ih fun s hs => h s (List.mem_cons_of_mem r hs)
      simp only [List.flatten_cons, List.length_append, hr, ht,
        List.length_cons]
      ring

theorem mk2v_ok_valid {T : Type} {x y : Int} {v : List (List T)}
    {M : Matrix T} (h : Matrix.mk2v x y v = .ok M) : M.valid := by
  unfold Matrix.mk2v at h
  cases hdc : Matrix.descriptorConstruct [x, y] with
  | error e => rw [hdc] at h; simp at h
  | ok sizes =>
      rw [hdc] at h
      obtain ⟨hs, hr⟩ := descriptorConstruct_ok hdc
      by_cases hc : v.length = x.toNat ∧
          v.all (fun row => row.length = y.toNat)
      · simp only [if_pos hc] at h
        simp at h
        have hall : ∀ r ∈ v, r.length = y.toNat := by
          intro r hr2
          have := List.all_eq_true.mp hc.2 r hr2
          simpa using this
        have hfl : v.flatten.length = v.length * y.toNat :=
          length_flatten_const hall
        subst h
        refine ⟨?_, by rw [hs]; simp⟩
        rw [hs]
        simp [hfl, hc.1]
      · simp only [if_neg hc] at h
        simp at h

theorem mk3v_ok_valid {T : Type} {x y z : Int} {v : List (List (List T))}
    {M : Matrix T} (h : Matrix.mk3v x y z v = .ok M) : M.valid := by
  unfold Matrix.mk3v at h
  cases hdc : Matrix.descriptorConstruct [x, y, z] with
  | error e => rw [hdc] at h; simp at h
  | ok sizes =>
      rw [hdc] at h
      obtain ⟨hs, hr⟩ := descriptorConstruct_ok hdc
      by_cases hc : v.length = x.toNat ∧
          v.all (fun plane =>
            plane.length = y.toNat ∧
              plane.all (fun row => row.length = z.toNat))
      · simp only [if_pos hc] at h
        simp at h
        have hall : ∀ q ∈ v.map List.flatten, q.length = y.toNat * z.toNat := by
          intro q hq
          rcases List.mem_map.1 hq with ⟨p, hp, rfl⟩
          have hplane := List.all_eq_true.mp hc.2 p hp
          simp only [decide_eq_true_eq] at hplane
          have hrows : ∀ r ∈ p, r.length = z.toNat := by
            intro r hr2
            have := List.all_eq_true.mp hplane.2 r hr2
            simpa using this
          rw [length_flatten_const hrows, hplane.1]
        have hfl : (v.map List.flatten).flatten.length =
            v.length * (y.toNat * z.toNat) := by
          rw [length_flatten_const hall]
          simp
        subst h
        refine ⟨?_, by rw [hs]; simp⟩
        rw [hs]
        simp [hfl, hc.1, Nat.mul_assoc]
      · simp only [if_neg hc] at h
        simp at h

theorem matmulFlat_length {T : Type} [Mul T] [Add T] [Zero T]
    (x y z : Nat) (a b : List T) :
    (Matrix.matmulFlat x y z a b).length = x * z := by
  simp [Matrix.matmulFlat]

theorem transposeFlat_length {T : Type} [Zero T] (x y : Nat) (l : List T) :
    (Matrix.transposeFlat x y l).length = y * x := by
  simp [Matrix.transposeFlat]

theorem add_ok_valid {T : Type} [Add T] {A B M : Matrix T}
    (hA : A.valid) (hB : B.valid) (h : A.add B = .ok M) : M.valid := by
  unfold Matrix.add at h
  by_cases hs : A.sizes = B.sizes
  · simp only [if_pos hs] at h
    simp at h
    subst h
    obtain ⟨hA1, hA2⟩ := hA
    refine ⟨?_, hA2⟩
    obtain ⟨hB1, _⟩ := hB
    rw [hs] at hA1
    simp [hA1, hB1, hs]
  · by_cases hl : A.sizes.length = B.sizes.length
    · simp [hs, hl] at h
    · simp [hs, hl] at h

theorem sub_ok_valid {T : Type} [Sub T] {A B M : Matrix T}
    (hA : A.valid) (hB : B.valid) (h : A.sub B = .ok M) : M.valid := by
  unfold Matrix.sub at h
  by_cases hs : A.sizes = B.sizes
  · simp only [if_pos hs] at h
    simp at h
    subst h
    obtain ⟨hA1, hA2⟩ := hA
    refine ⟨?_, hA2⟩
    obtain ⟨hB1, _⟩ := hB
    rw [hs] at hA1
    simp [hA1, hB1, hs]
  · by_cases hl : A.sizes.length = B.sizes.length
    · simp [hs, hl] at h
    · simp [hs, hl] at h

theorem mul_ok_valid {T : Type} [Mul T] [Add T] [Zero T] {A B M : Matrix T}
    (hA : A.valid) (hB : B.valid) (h : A.mul B = .ok M) : M.valid := by
  unfold Matrix.mul at h
  by_cases hmm : A.sizes.length = 2 ∧ B.sizes.length = 2 ∧ A.dimY = B.dimX
  · simp only [if_pos hmm] at h
    simp at h
    subst h
    refine ⟨?_, by simp⟩
    simp [matmulFlat_length]
  · simp only [if_neg hmm] at h
    by_cases hs : A.sizes = B.sizes
    · simp only [if_pos hs] at h
      simp at h
      subst h
      obtain ⟨hA1, hA2⟩ := hA
      refine ⟨?_, hA2⟩
      obtain ⟨hB1, _⟩ := hB
      rw [hs] at hA1
      simp [hA1, hB1, hs]
    · by_cases hl : A.sizes.length = B.sizes.length
      · simp [hs, hl] at h
      · simp [hs, hl] at h

theorem transpose_valid {T : Type} [Zero T] {M : Matrix T} (h : M.valid) :
    M.transpose.valid := by
  rcases M with ⟨sizes, el⟩
  rcases sizes with _ | ⟨x, _ | ⟨y, _ | ⟨z, t⟩⟩⟩
  · exact h
  · exact h
  · refine ⟨?_, by simp [Matrix.transpose]⟩
    simp [Matrix.transpose, transposeFlat_length]
  · exact h

theorem zipWith_add_sub {T : Type} [AddGroup T] :
    ∀ (a b : List T), a.length = b.length →
      (a.zipWith (fun p q => p + q) b).zipWith (fun p q => p - q) b = a
  | [], [], _ => rfl
  | p :: ps, q :: qs, h => by
      simp only [List.zipWith, add_sub_cancel_right, List.cons.injEq,
        true_and]
      exact zipWith_add_sub ps qs (by simpa using h)

theorem twoD_lt {x y i j : Nat} (hi : i < x) (hj : j < y) :
    i * y + j < x * y := by
  have h := rowMajorOffset_lt (Z := 1) hi hj Nat.zero_lt_one
  simpa using h

theorem transposeFlat_getD {T : Type} [Zero T] {x y : Nat} (l : List T)
    {i j : Nat} (hi : i < x) (hj : j < y) :
    (Matrix.transposeFlat x y l).getD (j * x + i) 0 = l.getD (i * y + j) 0 := by
  have hx : 0 < x := by omega
  have hm : j * x + i < y * x := twoD_lt hj hi
  have h1 : (j * x + i) % x = i := by
    rw [show j * x + i = x * j + i by ring, Nat.mul_add_mod]
    exact Nat.mod_eq_of_lt hi
  have h2 : (j * x + i) / x = j := by
    rw [show j * x + i = x * j + i by ring, Nat.mul_add_div hx]
    simp [Nat.div_eq_of_lt hi]
  rw [Matrix.transposeFlat, getD_range_map _ _ hm, h1, h2]

theorem transposeFlat_involutive {T : Type} [Zero T] {x y : Nat}
    {l : List T} (hl : l.length = x * y) :
    Matrix.transposeFlat y x (Matrix.transposeFlat x y l) = l := by
  rcases Nat.eq_zero_or_pos y with hy | hy
  · subst hy
    simp at hl
    subst hl
    simp [Matrix.transposeFlat]
  · have step : ∀ m ∈ List.range (x * y),
        (Matrix.transposeFlat x y l).getD (m % y * x + m / y) 0 =
          l.getD m 0 := by
      intro m hm
      have hmlt : m < x * y := List.mem_range.mp hm
      have hdiv : m / y < x := Nat.div_lt_of_lt_mul (by rwa [Nat.mul_comm] at hmlt)
      have hmod : m % y < y := Nat.mod_lt _ hy
      have hgd := transposeFlat_getD l hdiv hmod
      rw [hgd, show m / y * y + m % y = m from by
        rw [Nat.mul_comm (m / y) y]; exact Nat.div_add_mod m y]
    calc Matrix.transposeFlat y x (Matrix.transposeFlat x y l)
        = (List.range (x * y)).map
            (fun m => (Matrix.transposeFlat x y l).getD (m % y * x + m / y) 0) :=
          rfl
      _ = (List.range (x * y)).map (fun m => l.getD m 0) :=
          List.map_congr_left step
      _ = l := by rw [← hl]; exact map_getD_range l 0

theorem sizes_rank2 {T : Type} {M : Matrix T} (h : M.sizes.length = 2) :
    M.sizes = [M.dimX, M.dimY] := by
  rcases M with ⟨sizes, el⟩
  rcases sizes with _ | ⟨a, _ | ⟨b, t⟩⟩
  · simp at h
  · simp at h
  · simp at h
    subst h
    simp [Matrix.dimX, Matrix.dimY]

theorem mul_matmul_dispatch {T : Type} [Mul T] [Add T] [Zero T]
    (A B : Matrix T) (h1 : A.sizes.length = 2) (h2 : B.sizes.length = 2)
    (h3 : A.dimY = B.dimX) :
    A.mul B = .ok ⟨[A.dimX, B.dimY],
      Matrix.matmulFlat A.dimX A.dimY B.dimY A.elements B.elements⟩ := by
  simp [Matrix.mul, h1, h2, h3]

theorem mul_hadamard_dispatch {T : Type} [Mul T] [Add T] [Zero T]
    (A B : Matrix T) (hs : A.sizes = B.sizes)
    (hnsq : ∀ n : Nat, A.sizes ≠ [n, n]) :
    A.mul B = .ok ⟨A.sizes, A.elements.zipWith (fun p q => p * q) B.elements⟩ := by
  have hnot : ¬(A.sizes.length = 2 ∧ B.sizes.length = 2 ∧ A.dimY = B.dimX) := by
    rintro ⟨hA2, hB2, hin⟩
    have hAform := sizes_rank2 hA2
    have hBform := sizes_rank2 hB2
    have hlist : [A.dimX, A.dimY] = [B.dimX, B.dimY] :=
      hAform.symm.trans (hs.trans hBform)
    simp only [List.cons.injEq, and_true] at hlist
    have hxy : A.dimX = A.dimY := hlist.1.trans hin.symm
    exact hnsq A.dimY (by rw [hAform, hxy])
  unfold Matrix.mul
  rw [if_neg hnot, if_pos hs]

theorem zeros_natCast {T : Type} [Zero T] (dims : List Nat)
    (hlen : dims.length ≤ 3) :
    Matrix.zeros T (dims.map Int.ofNat) =
      .ok ⟨dims, List.replicate dims.prod 0⟩ := by
  have hmap : (dims.map Int.ofNat).map Int.toNat = dims := by
    rw [List.map_map]
    have hco : (Int.toNat ∘ Int.ofNat) = id := by
      funext n
      simp [Int.toNat_ofNat]
    rw [hco, List.map_id]
  unfold Matrix.zeros Matrix.descriptorConstruct
  rw [if_neg (by rw [List.length_map]; omega), if_neg (by simp)]
  simp [Except.map, hmap]

theorem zeros_ok_elements {T : Type} [Zero T] {dims : List Int}
    {M : Matrix T} (h : Matrix.zeros T dims = .ok M) :
    ∀ e ∈ M.elements, e = 0 := by
  unfold Matrix.zeros at h
  cases hdc : Matrix.descriptorConstruct dims with
  | error e => rw [hdc] at h; simp [Except.map] at h
  | ok sizes =>
      rw [hdc] at h
      simp [Except.map] at h
      subst h
      intro e he
      exact List.eq_of_mem_replicate he

/-- C1: for every valid Matrix the flat storage length equals the product
of the dimension sizes; every valid index tuple (i, j, k) maps through
the row-major strides (stride of the finest axis 1, each coarser stride
the product of the finer axis sizes) to a flat offset inside
[0, elements.length), injectively; the validity invariant is established
by every constructor form and preserved by the arithmetic operators and
by transpose. -/
theorem C1_storage_indexing_invariant :
    (∀ (T : Type), (Matrix.uninit T).valid) ∧
    (∀ (T : Type) [Zero T] (d : Int) (M : Matrix T),
      Matrix.mk1 T d = .ok M → M.valid) ∧
    (∀ (T : Type) [Zero T] (n m : Int) (M : Matrix T),
      Matrix.mk2 T n m = .ok M → M.valid) ∧
    (∀ (T : Type) [Zero T] (x y z : Int) (M : Matrix T),
      Matrix.mk3 T x y z = .ok M → M.valid) ∧
    (∀ (T : Type) (d : Int) (v : List T) (M : Matrix T),
      Matrix.mk1v d v = .ok M → M.valid) ∧
    (∀ (T : Type) (x y : Int) (v : List (List T)) (M : Matrix T),
      Matrix.mk2v x y v = .ok M → M.valid) ∧
    (∀ (T : Type) (x y z : Int) (v : List (List (List T))) (M : Matrix T),
      Matrix.mk3v x y z v = .ok M → M.valid) ∧
    (∀ (T : Type) (dims : List Int) (data : List T) (M : Matrix T),
      Matrix.fromFlat dims data = .ok M → M.valid) ∧
    (∀ (T : Type) (M : Matrix T), M.valid →
      M.elements.length = M.sizes.prod) ∧
    (∀ (T : Type) (M : Matrix T) (i j k : Nat), M.valid →
      i < M.dimX → j < M.dimY → k < M.dimZ →
      M.offset i j k < M.elements.length) ∧
    (∀ (T : Type) (M : Matrix T) (i j k i2 j2 k2 : Nat),
      j < M.dimY → k < M.dimZ → j2 < M.dimY → k2 < M.dimZ →
      M.offset i j k = M.offset i2 j2 k2 → i = i2 ∧ j = j2 ∧ k = k2) ∧
    (∀ (T : Type) [Add T] (A B M : Matrix T),
      A.valid → B.valid → A.add B = .ok M → M.valid) ∧
    (∀ (T : Type) [Sub T] (A B M : Matrix T),
      A.valid → B.valid → A.sub B = .ok M → M.valid) ∧
    (∀ (T : Type) [Mul T] [Add T] [Zero T] (A B M : Matrix T),
      A.valid → B.valid → A.mul B = .ok M → M.valid) ∧
    (∀ (T : Type) [Zero T] (M : Matrix T), M.valid → M.transpose.valid) := by
  refine ⟨?_, ?_, ?_, ?_, ?_, ?_, ?_, ?_, ?_, ?_, ?_, ?_, ?_, ?_, ?_⟩
  · intro T
    exact ⟨rfl, by simp [Matrix.uninit]⟩
  · intro T _ d M h
    exact zeros_ok_valid h
  · intro T _ n m M h
    exact zeros_ok_valid h
  · intro T _ x y z M h
    exact zeros_ok_valid h
  · intro T d v M h
    exact fromFlat_ok_valid h
  · intro T x y v M h
    exact mk2v_ok_valid h
  · intro T x y z v M h
    exact mk3v_ok_valid h
  · intro T dims data M h
    exact fromFlat_ok_valid h
  · intro T M h
    exact h.1
  · intro T M i j k hv hi hj hk
    rw [valid_elements_length hv]
    exact rowMajorOffset_lt hi hj hk
  · intro T M i j k i2 j2 k2 hj hk hj2 hk2 he
    exact rowMajorOffset_inj hj hk hj2 hk2 he
  · intro T _ A B M hA hB h
    exact add_ok_valid hA hB h
  · intro T _ A B M hA hB h
    exact sub_ok_valid hA hB h
  · intro T _ _ _ A B M hA hB h
    exact mul_ok_valid hA hB h
  · intro T _ M h
    exact transpose_valid h

/-- Witness for C1 at concrete inputs. -/
theorem C1_storage_indexing_invariant_witness :
    (Matrix.uninit Int).valid ∧
    (⟨[2], List.replicate 2 (0 : Int)⟩ : Matrix Int).valid ∧
    (⟨[2, 3], List.replicate 6 (0 : Int)⟩ : Matrix Int).valid ∧
    (⟨[2, 3, 4], List.replicate 24 (0 : Int)⟩ : Matrix Int).valid ∧
    (⟨[3], [1, 2, 3]⟩ : Matrix Int).valid ∧
    (⟨[2, 2], [1, 2, 3, 4]⟩ : Matrix Int).valid ∧
    (⟨[1, 2, 2], [1, 2, 3, 4]⟩ : Matrix Int).valid ∧
    (⟨[2, 3], [1, 2, 3, 4, 5, 6]⟩ : Matrix Int).valid ∧
    (⟨[2, 3, 4], List.replicate 24 (0 : Int)⟩ : Matrix Int).elements.length =
      ([2, 3, 4] : List Nat).prod ∧
    (⟨[2, 3, 4], List.replicate 24 (0 : Int)⟩ : Matrix Int).offset 1 2 3 <
      (⟨[2, 3, 4], List.replicate 24 (0 : Int)⟩ :
        Matrix Int).elements.length ∧
    ((1 : Nat) = 1 ∧ (2 : Nat) = 2 ∧ (3 : Nat) = 3) ∧
    (⟨[3], [5, 7, 9]⟩ : Matrix Int).valid ∧
    (⟨[3], [-3, -3, -3]⟩ : Matrix Int).valid ∧
    (⟨[2, 2], [19, 22, 43, 50]⟩ : Matrix Int).valid ∧
    (⟨[2, 3], [1, 2, 3, 4, 5, 6]⟩ : Matrix Int).transpose.valid := by
  obtain ⟨h1, h2, h3, h4, h5, h6, h7, h8, h9, h10, h11, h12, h13, h14, h15⟩ :=
    C1_storage_indexing_invariant
  exact ⟨h1 Int,
    h2 Int 2 ⟨[2], List.replicate 2 0⟩ (by decide),
    h3 Int 2 3 ⟨[2, 3], List.replicate 6 0⟩ (by decide),
    h4 Int 2 3 4 ⟨[2, 3, 4], List.replicate 24 0⟩ (by decide),
    h5 Int 3 [1, 2, 3] ⟨[3], [1, 2, 3]⟩ (by decide),
    h6 Int 2 2 [[1, 2], [3, 4]] ⟨[2, 2], [1, 2, 3, 4]⟩ (by decide),
    h7 Int 1 2 2 [[[1, 2], [3, 4]]] ⟨[1, 2, 2], [1, 2, 3, 4]⟩ (by decide),
    h8 Int [2, 3] [1, 2, 3, 4, 5, 6] ⟨[2, 3], [1, 2, 3, 4, 5, 6]⟩ (by decide),
    h9 Int ⟨[2, 3, 4], List.replicate 24 0⟩ (by decide),
    h10 Int ⟨[2, 3, 4], List.replicate 24 0⟩ 1 2 3 (by decide) (by decide)
      (by decide) (by decide),
    h11 Int (⟨[2, 3, 4], List.replicate 24 0⟩ : Matrix Int) 1 2 3 1 2 3
      (by decide) (by decide) (by decide) (by decide) rfl,
    h12 Int ⟨[3], [1, 2, 3]⟩ ⟨[3], [4, 5, 6]⟩ ⟨[3], [5, 7, 9]⟩ (by decide)
      (by decide) (by decide),
    h13 Int ⟨[3], [1, 2, 3]⟩ ⟨[3], [4, 5, 6]⟩ ⟨[3], [-3, -3, -3]⟩ (by decide)
      (by decide) (by decide),
    h14 Int ⟨[2, 2], [1, 2, 3, 4]⟩ ⟨[2, 2], [5, 6, 7, 8]⟩
      ⟨[2, 2], [19, 22, 43, 50]⟩ (by decide) (by decide) (by decide),
    h15 Int ⟨[2, 3], [1, 2, 3, 4, 5, 6]⟩ (by decide)⟩

/-- C2: constructing a zero-filled Matrix with any requested dimension
tuple of non-negative entries and rank at most 3 reports exactly those
sizes through dimX, dimY and dimZ, axes unused by the rank reporting 1;
in this functional model the queries are pure functions of the Matrix
value, so they have no side effects. -/
theorem C2_dim_queries (T : Type) [Zero T] (x y z : Nat) :
    (∀ M : Matrix T, Matrix.mk1 T (Int.ofNat x) = .ok M →
      M.dimX = x ∧ M.dimY = 1 ∧ M.dimZ = 1) ∧
    (∀ M : Matrix T, Matrix.mk2 T (Int.ofNat x) (Int.ofNat y) = .ok M →
      M.dimX = x ∧ M.dimY = y ∧ M.dimZ = 1) ∧
    (∀ M : Matrix T,
      Matrix.mk3 T (Int.ofNat x) (Int.ofNat y) (Int.ofNat z) = .ok M →
      M.dimX = x ∧ M.dimY = y ∧ M.dimZ = z) := by
  refine ⟨?_, ?_, ?_⟩
  · intro M h
    rw [Matrix.mk1, show [Int.ofNat x] = [x].map Int.ofNat from rfl,
      zeros_natCast [x] (by simp)] at h
    simp at h
    subst h
    simp [Matrix.dimX, Matrix.dimY, Matrix.dimZ]
  · intro M h
    rw [Matrix.mk2, show [Int.ofNat x, Int.ofNat y] = [x, y].map Int.ofNat
      from rfl, zeros_natCast [x, y] (by simp)] at h
    simp at h
    subst h
    simp [Matrix.dimX, Matrix.dimY, Matrix.dimZ]
  · intro M h
    rw [Matrix.mk3, show [Int.ofNat x, Int.ofNat y, Int.ofNat z] =
      [x, y, z].map Int.ofNat from rfl,
      zeros_natCast [x, y, z] (by simp)] at h
    simp at h
    subst h
    simp [Matrix.dimX, Matrix.dimY, Matrix.dimZ]

/-- Witness for C2 at the dimensions (2, 3, 4). -/
theorem C2_dim_queries_witness :
    ((⟨[2], List.replicate 2 (0 : Int)⟩ : Matrix Int).dimX = 2 ∧
      (⟨[2], List.replicate 2 (0 : Int)⟩ : Matrix Int).dimY = 1 ∧
      (⟨[2], List.replicate 2 (0 : Int)⟩ : Matrix Int).dimZ = 1) ∧
    ((⟨[2, 3], List.replicate 6 (0 : Int)⟩ : Matrix Int).dimX = 2 ∧
      (⟨[2, 3], List.replicate 6 (0 : Int)⟩ : Matrix Int).dimY = 3 ∧
      (⟨[2, 3], List.replicate 6 (0 : Int)⟩ : Matrix Int).dimZ = 1) ∧
    ((⟨[2, 3, 4], List.replicate 24 (0 : Int)⟩ : Matrix Int).dimX = 2 ∧
      (⟨[2, 3, 4], List.replicate 24 (0 : Int)⟩ : Matrix Int).dimY = 3 ∧
      (⟨[2, 3, 4], List.replicate 24 (0 : Int)⟩ : Matrix Int).dimZ = 4) :=
  ⟨(C2_dim_queries Int 2 3 4).1 ⟨[2], List.replicate 2 0⟩ (by decide),
   (C2_dim_queries Int 2 3 4).2.1 ⟨[2, 3], List.replicate 6 0⟩ (by decide),
   (C2_dim_queries Int 2 3 4).2.2 ⟨[2, 3, 4], List.replicate 24 0⟩
     (by decide)⟩

/-- C3: every no-seed constructor form (1D, 2D and 3D) fills the flat
storage entirely with the additive identity of T. -/
theorem C3_zero_filled (T : Type) [Zero T] (x y z : Int) :
    (∀ M : Matrix T, Matrix.mk1 T x = .ok M → ∀ e ∈ M.elements, e = 0) ∧
    (∀ M : Matrix T, Matrix.mk2 T x y = .ok M → ∀ e ∈ M.elements, e = 0) ∧
    (∀ M : Matrix T, Matrix.mk3 T x y z = .ok M → ∀ e ∈ M.elements, e = 0) :=
  ⟨fun _ h => zeros_ok_elements h,
   fun _ h => zeros_ok_elements h,
   fun _ h => zeros_ok_elements h⟩

/-- Witness for C3 at the dimensions (2, 3, 4). -/
theorem C3_zero_filled_witness :
    (∀ e ∈ (⟨[2], List.replicate 2 (0 : Int)⟩ : Matrix Int).elements,
      e = 0) ∧
    (∀ e ∈ (⟨[2, 3], List.replicate 6 (0 : Int)⟩ : Matrix Int).elements,
      e = 0) ∧
    (∀ e ∈ (⟨[2, 3, 4], List.replicate 24 (0 : Int)⟩ :
        Matrix Int).elements, e = 0) :=
  ⟨(C3_zero_filled Int 2 3 4).1 ⟨[2], List.replicate 2 0⟩ (by decide),
   (C3_zero_filled Int 2 3 4).2.1 ⟨[2, 3], List.replicate 6 0⟩ (by decide),
   (C3_zero_filled Int 2 3 4).2.2 ⟨[2, 3, 4], List.replicate 24 0⟩
     (by decide)⟩

/-- C5: default construction yields the canonical uninitialized Matrix:
rank 1, size list (0), dimX reporting 0 and zero total elements. -/
theorem C5_default_uninitialized (T : Type) :
    (Matrix.uninit T).sizes = [0] ∧
    (Matrix.uninit T).sizes.length = 1 ∧
    (Matrix.uninit T).dimX = 0 ∧
    (Matrix.uninit T).elements.length = 0 :=
  ⟨rfl, rfl, rfl, rfl⟩

theorem descriptorConstruct_rank_big {dims : List Int}
    (h : dims.length > 3) :
    Matrix.descriptorConstruct dims = .error .ShapeError := by
  unfold Matrix.descriptorConstruct
  rw [if_pos h]

theorem descriptorConstruct_ok_of {dims : List Int}
    (hlen : dims.length ≤ 3) (h0 : ∀ d ∈ dims, 0 ≤ d) :
    Matrix.descriptorConstruct dims = .ok (dims.map Int.toNat) := by
  unfold Matrix.descriptorConstruct
  rw [if_neg (by omega), if_neg ?hneg]
  case hneg =>
    simp only [List.any_eq_true, decide_eq_true_eq, not_exists, not_and,
      not_lt]
    exact h0

/-- C4 counterexample: with a dimension list of rank 4 and a seed whose
length does not match the size product, the arbitrary-rank constructor
fails with ShapeError (the shape is validated first), not with the
ShapeMismatchError the claim requires for every mismatched length. -/
theorem C4_flat_seed_validation_counterexample :
    Matrix.fromFlat [1, 1, 1, 1] (List.replicate 5 (0 : Int)) =
      .error .ShapeError ∧
    (Except.error MatError.ShapeError : Except MatError (Matrix Int)) ≠
      .error .ShapeMismatchError := by
  decide

/-- C4 (amended): the arbitrary-rank constructor validates the shape
first: whenever the dimension list has more than 3 axes it fails with
ShapeError; whenever the shape is acceptable (rank at most 3, entries
non-negative) and the seed length differs from the product of the sizes
it fails with ShapeMismatchError — in particular dims (2, 3) with a seed
of length 5 fails so; and it never silently clamps, truncates or wraps:
a successful construction carries exactly the requested sizes and the
seed data unchanged. -/
theorem C4_flat_seed_validation :
    (∀ (T : Type) (dims : List Int) (data : List T),
      dims.length > 3 → Matrix.fromFlat dims data = .error .ShapeError) ∧
    (∀ (T : Type) (dims : List Int) (data : List T),
      dims.length ≤ 3 → (∀ d ∈ dims, 0 ≤ d) →
      data.length ≠ (dims.map Int.toNat).prod →
      Matrix.fromFlat dims data = .error .ShapeMismatchError) ∧
    (Matrix.fromFlat [2, 3] (List.replicate 5 (0 : Int)) =
      .error .ShapeMismatchError) ∧
    (∀ (T : Type) (dims : List Int) (data : List T) (M : Matrix T),
      Matrix.fromFlat dims data = .ok M →
      M.sizes = dims.map Int.toNat ∧ M.elements = data) := by
  refine ⟨?_, ?_, by decide, ?_⟩
  · intro T dims data h
    unfold Matrix.fromFlat
    rw [descriptorConstruct_rank_big h]
  · intro T dims data hlen h0 hmis
    unfold Matrix.fromFlat
    rw [descriptorConstruct_ok_of hlen h0]
    simp only [if_pos hmis]
  · intro T dims data M h
    unfold Matrix.fromFlat at h
    cases hdc : Matrix.descriptorConstruct dims with
    | error e => rw [hdc] at h; simp at h
    | ok sizes =>
        rw [hdc] at h
        obtain ⟨hs, hr⟩ := descriptorConstruct_ok hdc
        by_cases hlen : data.length ≠ sizes.prod
        · simp [hlen] at h
        · simp [hlen] at h
          subst h
          exact ⟨hs, rfl⟩

/-- Witness for C4 at concrete inputs. -/
theorem C4_flat_seed_validation_witness :
    Matrix.fromFlat [1, 1, 1, 1] ([] : List Int) = .error .ShapeError ∧
    Matrix.fromFlat [2, 3] (List.replicate 5 (0 : Int)) =
      .error .ShapeMismatchError ∧
    ((⟨[2, 3], [1, 2, 3, 4, 5, 6]⟩ : Matrix Int).sizes =
        ([2, 3] : List Int).map Int.toNat ∧
      (⟨[2, 3], [1, 2, 3, 4, 5, 6]⟩ : Matrix Int).elements =
        [1, 2, 3, 4, 5, 6]) :=
  ⟨C4_flat_seed_validation.1 Int [1, 1, 1, 1] [] (by decide),
   C4_flat_seed_validation.2.1 Int [2, 3] (List.replicate 5 0) (by decide)
     (by decide) (by decide),
   C4_flat_seed_validation.2.2.2 Int [2, 3] [1, 2, 3, 4, 5, 6]
     ⟨[2, 3], [1, 2, 3, 4, 5, 6]⟩ (by decide)⟩

/-- C6: copy construction into a fresh buffer yields a handle with equal
descriptor and equal elements that shares no storage with the source:
a write through either handle leaves the buffer seen through the other
handle unchanged. -/
theorem C6_copy_deep_no_alias (T : Type) (s : Store T) (A : MatHandle)
    (fresh : Nat) (hfresh : fresh ≠ A.bufId) :
    ((copyMatrix s A fresh).1).sizes = A.sizes ∧
    ((copyMatrix s A fresh).1).bufId ≠ A.bufId ∧
    (copyMatrix s A fresh).2 ((copyMatrix s A fresh).1).bufId =
      (copyMatrix s A fresh).2 A.bufId ∧
    (∀ (off : Nat) (v : T),
      writeElement (copyMatrix s A fresh).2 (copyMatrix s A fresh).1 off v
        A.bufId = (copyMatrix s A fresh).2 A.bufId) ∧
    (∀ (off : Nat) (v : T),
      writeElement (copyMatrix s A fresh).2 A off v
        ((copyMatrix s A fresh).1).bufId =
        (copyMatrix s A fresh).2 ((copyMatrix s A fresh).1).bufId) := by
  have hfr : ¬ (A.bufId = fresh) := fun h => hfresh h.symm
  refine ⟨rfl, hfresh, ?_, ?_, ?_⟩
  · simp [copyMatrix, Store.update, hfr]
  · intro off v
    simp [copyMatrix, writeElement, Store.update, hfr]
  · intro off v
    simp [copyMatrix, writeElement, Store.update, hfr, hfresh]

/-- Witness for C6: a copy of the one-buffer store at handle 0 into the
fresh buffer 1. -/
theorem C6_copy_deep_no_alias_witness :
    ((copyMatrix (fun _ => ([0, 0] : List Int)) ⟨0, [2]⟩ 1).1).sizes =
      [2] ∧
    ((copyMatrix (fun _ => ([0, 0] : List Int)) ⟨0, [2]⟩ 1).1).bufId ≠ 0 ∧
    (copyMatrix (fun _ => ([0, 0] : List Int)) ⟨0, [2]⟩ 1).2
        ((copyMatrix (fun _ => ([0, 0] : List Int)) ⟨0, [2]⟩ 1).1).bufId =
      (copyMatrix (fun _ => ([0, 0] : List Int)) ⟨0, [2]⟩ 1).2 0 ∧
    (∀ (off : Nat) (v : Int),
      writeElement (copyMatrix (fun _ => ([0, 0] : List Int)) ⟨0, [2]⟩ 1).2
          (copyMatrix (fun _ => ([0, 0] : List Int)) ⟨0, [2]⟩ 1).1 off v 0 =
        (copyMatrix (fun _ => ([0, 0] : List Int)) ⟨0, [2]⟩ 1).2 0) ∧
    (∀ (off : Nat) (v : Int),
      writeElement (copyMatrix (fun _ => ([0, 0] : List Int)) ⟨0, [2]⟩ 1).2
          ⟨0, [2]⟩ off v
          ((copyMatrix (fun _ => ([0, 0] : List Int)) ⟨0, [2]⟩ 1).1).bufId =
        (copyMatrix (fun _ => ([0, 0] : List Int)) ⟨0, [2]⟩ 1).2
          ((copyMatrix (fun _ => ([0, 0] : List Int)) ⟨0, [2]⟩
            1).1).bufId) :=
  C6_copy_deep_no_alias Int (fun _ => [0, 0]) ⟨0, [2]⟩ 1 (by decide)

/-- C7: for same-shaped operands addition and subtraction act
elementwise, so (A + B) - B recovers A exactly; the concrete 1D scenario
[1, 2, 3] + [4, 5, 6] = [5, 7, 9] holds; and same-rank operands whose
dimensions differ in some axis make + and - fail with
ShapeMismatchError. -/
theorem C7_add_sub_elementwise :
    (∀ (T : Type) [AddGroup T] (A B : Matrix T),
      A.sizes = B.sizes → A.elements.length = B.elements.length →
      ∃ C : Matrix T, A.add B = .ok C ∧ C.sub B = .ok A) ∧
    ((do
        let A ← Matrix.mk1v 3 [(1 : Int), 2, 3]
        let B ← Matrix.mk1v 3 [(4 : Int), 5, 6]
        A.add B) = .ok ⟨[3], [5, 7, 9]⟩) ∧
    (∀ (T : Type) [Add T] [Sub T] (A B : Matrix T),
      A.sizes.length = B.sizes.length → A.sizes ≠ B.sizes →
      A.add B = .error .ShapeMismatchError ∧
      A.sub B = .error .ShapeMismatchError) := by
  refine ⟨?_, by decide, ?_⟩
  · intro T _ A B hs hlen
    refine ⟨⟨A.sizes, A.elements.zipWith (fun p q => p + q) B.elements⟩,
      ?_, ?_⟩
    · unfold Matrix.add
      rw [if_pos hs]
    · unfold Matrix.sub
      rw [if_pos hs, zipWith_add_sub A.elements B.elements hlen]
  · intro T _ _ A B hrank hne
    constructor
    · unfold Matrix.add
      rw [if_neg hne, if_pos hrank]
    · unfold Matrix.sub
      rw [if_neg hne, if_pos hrank]

/-- Witness for C7 at concrete 1D operands. -/
theorem C7_add_sub_elementwise_witness :
    (∃ C : Matrix Int,
      (⟨[3], [1, 2, 3]⟩ : Matrix Int).add ⟨[3], [4, 5, 6]⟩ = .ok C ∧
        C.sub ⟨[3], [4, 5, 6]⟩ = .ok ⟨[3], [1, 2, 3]⟩) ∧
    ((⟨[2], [1, 2]⟩ : Matrix Int).add ⟨[3], [1, 2, 3]⟩ =
        .error .ShapeMismatchError ∧
      (⟨[2], [1, 2]⟩ : Matrix Int).sub ⟨[3], [1, 2, 3]⟩ =
        .error .ShapeMismatchError) :=
  ⟨C7_add_sub_elementwise.1 Int ⟨[3], [1, 2, 3]⟩ ⟨[3], [4, 5, 6]⟩
     (by decide) (by decide),
   C7_add_sub_elementwise.2.2 Int ⟨[2], [1, 2]⟩ ⟨[3], [1, 2, 3]⟩
     (by decide) (by decide)⟩

/-- C8 counterexample: for square 2 by 2 operands the shapes match
exactly, yet the dispatched product is the standard matrix product
[[19, 22], [43, 50]] and not the Hadamard elementwise product
[[5, 12], [21, 32]] that the claim requires whenever shapes match
exactly; the two dispatch rules of the claim cannot both hold on square
operands. -/
theorem C8_mul_dispatch_counterexample :
    (⟨[2, 2], [1, 2, 3, 4]⟩ : Matrix Int).sizes =
      (⟨[2, 2], [5, 6, 7, 8]⟩ : Matrix Int).sizes ∧
    (⟨[2, 2], [1, 2, 3, 4]⟩ : Matrix Int).mul ⟨[2, 2], [5, 6, 7, 8]⟩ =
      .ok ⟨[2, 2], [19, 22, 43, 50]⟩ ∧
    (⟨[2, 2], [1, 2, 3, 4]⟩ : Matrix Int).mul ⟨[2, 2], [5, 6, 7, 8]⟩ ≠
      .ok ⟨[2, 2], [5, 12, 21, 32]⟩ := by
  decide

/-- C8 (amended): multiplication dispatches deterministically on operand
shapes: for rank-2 operands with agreeing inner dimensions
(A.dimY = B.dimX) the standard matrix product applies with result shape
(A.dimX, B.dimY), and this branch takes priority, so square same-shaped
operands multiply with matrix semantics — as in the concrete scenario
[[1, 2], [3, 4]] times [[5, 6], [7, 8]] = [[19, 22], [43, 50]]; the
Hadamard elementwise product applies when the shapes match exactly and
the matrix-product branch does not apply (the shape is not of the square
form (n, n)). -/
theorem C8_mul_dispatch :
    (∀ (T : Type) [Mul T] [Add T] [Zero T] (A B : Matrix T),
      A.sizes.length = 2 → B.sizes.length = 2 → A.dimY = B.dimX →
      ∃ C : Matrix T, A.mul B = .ok C ∧ C.sizes = [A.dimX, B.dimY] ∧
        C.dimX = A.dimX ∧ C.dimY = B.dimY) ∧
    (∀ (T : Type) [Mul T] [Add T] [Zero T] (A B : Matrix T),
      A.sizes = B.sizes → (∀ n : Nat, A.sizes ≠ [n, n]) →
      A.mul B =
        .ok ⟨A.sizes, A.elements.zipWith (fun p q => p * q) B.elements⟩) ∧
    ((do
        let A ← Matrix.mk2v 2 2 [[(1 : Int), 2], [3, 4]]
        let B ← Matrix.mk2v 2 2 [[(5 : Int), 6], [7, 8]]
        A.mul B) = .ok ⟨[2, 2], [19, 22, 43, 50]⟩) := by
  refine ⟨?_, ?_, by decide⟩
  · intro T _ _ _ A B h1 h2 h3
    refine ⟨_, mul_matmul_dispatch A B h1 h2 h3, rfl, ?_, ?_⟩
    · simp [Matrix.dimX]
    · simp [Matrix.dimY]
  · intro T _ _ _ A B hs hnsq
    exact mul_hadamard_dispatch A B hs hnsq

/-- Witness for C8: a 2 by 3 times 3 by 2 matrix product and a 2 by 3
Hadamard product. -/
theorem C8_mul_dispatch_witness :
    (∃ C : Matrix Int,
      (⟨[2, 3], [1, 2, 3, 4, 5, 6]⟩ : Matrix Int).mul
          ⟨[3, 2], [1, 0, 0, 1, 1, 1]⟩ = .ok C ∧
        C.sizes = [2, 2] ∧ C.dimX = 2 ∧ C.dimY = 2) ∧
    ((⟨[2, 3], [1, 2, 3, 4, 5, 6]⟩ : Matrix Int).mul
        ⟨[2, 3], [2, 2, 2, 2, 2, 2]⟩ =
      .ok ⟨[2, 3],
        ([1, 2, 3, 4, 5, 6] : List Int).zipWith (fun p q => p * q)
          [2, 2, 2, 2, 2, 2]⟩) :=
  ⟨C8_mul_dispatch.1 Int ⟨[2, 3], [1, 2, 3, 4, 5, 6]⟩
     ⟨[3, 2], [1, 0, 0, 1, 1, 1]⟩ (by decide) (by decide) (by decide),
   C8_mul_dispatch.2.1 Int ⟨[2, 3], [1, 2, 3, 4, 5, 6]⟩
     ⟨[2, 3], [2, 2, 2, 2, 2, 2]⟩ (by decide)
     (by intro n h; simp at h; omega)⟩

/-- C9: transpose of a rank-2 Matrix swaps the dimensions to
(dimY, dimX) and remaps the elements so that entry (j, i) of the result
equals entry (i, j) of the original; transpose is involutive on valid
rank-2 Matrices; and for rank-1 Matrices transpose returns an equal
copy. -/
theorem C9_transpose :
    (∀ (T : Type) [Zero T] (M : Matrix T) (x y : Nat),
      M.sizes = [x, y] →
      M.transpose.sizes = [y, x] ∧
      ∀ i j : Nat, i < x → j < y →
        M.transpose.elements.getD (j * x + i) 0 =
          M.elements.getD (i * y + j) 0) ∧
    (∀ (T : Type) [Zero T] (M : Matrix T) (x y : Nat),
      M.sizes = [x, y] → M.valid → M.transpose.transpose = M) ∧
    (∀ (T : Type) [Zero T] (M : Matrix T) (d : Nat),
      M.sizes = [d] → M.transpose = M) := by
  refine ⟨?_, ?_, ?_⟩
  · intro T _ M x y hs
    rcases M with ⟨sizes, el⟩
    simp only at hs
    subst hs
    refine ⟨rfl, ?_⟩
    intro i j hi hj
    exact transposeFlat_getD el hi hj
  · intro T _ M x y hs hv
    rcases M with ⟨sizes, el⟩
    simp only at hs
    subst hs
    have hlen : el.length = x * y := by
      have h1 := hv.1
      simpa using h1
    show (⟨[y, x], Matrix.transposeFlat x y el⟩ : Matrix T).transpose =
      ⟨[x, y], el⟩
    show (⟨[x, y],
      Matrix.transposeFlat y x (Matrix.transposeFlat x y el)⟩ :
        Matrix T) = ⟨[x, y], el⟩
    rw [transposeFlat_involutive hlen]
  · intro T _ M d hs
    rcases M with ⟨sizes, el⟩
    simp only at hs
    subst hs
    rfl

/-- Witness for C9 at a concrete 2 by 3 Matrix and a 1D Matrix. -/
theorem C9_transpose_witness :
    ((⟨[2, 3], [1, 2, 3, 4, 5, 6]⟩ : Matrix Int).transpose.sizes =
        [3, 2] ∧
      ∀ i j : Nat, i < 2 → j < 3 →
        (⟨[2, 3], [1, 2, 3, 4, 5, 6]⟩ :
            Matrix Int).transpose.elements.getD (j * 2 + i) 0 =
          (⟨[2, 3], [1, 2, 3, 4, 5, 6]⟩ :
            Matrix Int).elements.getD (i * 3 + j) 0) ∧
    (⟨[2, 3], [1, 2, 3, 4, 5, 6]⟩ : Matrix Int).transpose.transpose =
      ⟨[2, 3], [1, 2, 3, 4, 5, 6]⟩ ∧
    (⟨[3], [1, 2, 3]⟩ : Matrix Int).transpose = ⟨[3], [1, 2, 3]⟩ :=
  ⟨C9_transpose.1 Int ⟨[2, 3], [1, 2, 3, 4, 5, 6]⟩ 2 3 (by decide),
   C9_transpose.2.1 Int ⟨[2, 3], [1, 2, 3, 4, 5, 6]⟩ 2 3 (by decide)
     (by decide),
   C9_transpose.2.2 Int ⟨[3], [1, 2, 3]⟩ 3 (by decide)⟩

/-- C10: as declared in src/modules/core/Mat.h, the Matrix class has no
data member; its members are exactly nine constructors, one destructor
and the four member functions dimX, dimY, dimZ and first; no arithmetic
operator, transpose, row accessor or device-residency member is
declared; consequently the declared object state is a one-point type,
so the result of any query of that state cannot depend on the
construction arguments. -/
theorem C10_declaration_surface :
    dataMembers = [] ∧
    (matrixDeclaredMembers.filter fun m =>
      m.2 = MemberKind.ctor).length = 9 ∧
    (matrixDeclaredMembers.filter fun m =>
      m.2 = MemberKind.dtor).length = 1 ∧
    (matrixDeclaredMembers.filter fun m =>
      m.2 = MemberKind.query).map Prod.fst =
      ["dimX", "dimY", "dimZ", "first"] ∧
    (matrixDeclaredMembers.filter fun m =>
      m.2 = MemberKind.operatorOverload ∨ m.2 = MemberKind.rowAccess ∨
        m.2 = MemberKind.deviceOp) = [] ∧
    matrixDeclaredMembers.length = 14 ∧
    (∀ (fieldType : String → Type)
      (q : MatrixObjectState fieldType → Int)
      (s1 s2 : MatrixObjectState fieldType), q s1 = q s2) := by
  have hD : dataMembers = [] := by decide
  refine ⟨hD, by decide, by decide, by decide, by decide, by decide, ?_⟩
  intro fieldType q s1 s2
  have hstate : s1 = s2 := by
    funext m hm
    rw [hD] at hm
    exact absurd hm (List.not_mem_nil m)
  rw [hstate]

end CUL
